import Mathlib

/-!
A shallow embedding of the client layer of the rollup processor: the
`Contracts` class that packs ECDSA signatures for the settlement contract,
submits rollup proofs and deposits, maintains a cache of ERC20 asset
handles, and reconstructs rollup blocks from on-chain events.

Byte buffers are lists of natural numbers (one per byte); the on-chain
providers are modelled as explicit data (`Chain`) and issued calls are
reified as data so that theorems can talk about their shapes.
-/

namespace AztecConnect

/-- A byte buffer (JS `Buffer`), one natural number per byte. -/
abbrev Buffer := List Nat

/-- An Ethereum address, kept abstract. -/
structure EthAddress where
  val : Nat
deriving DecidableEq

/-- `EthereumSignature` from the source: `{ v: Buffer; r: Buffer; s: Buffer }`. -/
structure EthereumSignature where
  v : Buffer
  r : Buffer
  s : Buffer
deriving DecidableEq

/-- `PermitArgs` from the source: `{ deadline: bigint; approvalAmount: bigint; signature }`. -/
structure PermitArgs where
  deadline : Int
  approvalAmount : Int
  signature : EthereumSignature
deriving DecidableEq

/-- JS `buffer.slice(-1)`: the final byte of the buffer (empty for an empty buffer). -/
def sliceLast (b : Buffer) : Buffer := b.drop (b.length - 1)

/-- The per-signature body of `solidityFormatSignatures`:
`Buffer.concat([currentSignature.slice(0, 64), Buffer.alloc(31), v])`
where `v = currentSignature.slice(-1)`. -/
def formatSignature (currentSignature : Buffer) : Buffer :=
  currentSignature.take 64 ++ List.replicate 31 0 ++ sliceLast currentSignature

/-- `solidityFormatSignatures`: maps each signature to its padded form and
concatenates the results into a single buffer. -/
def solidityFormatSignatures (signatures : List Buffer) : Buffer :=
  (signatures.map formatSignature).flatten

/-- A resolved transaction signer: either derived from an explicit address
(`provider.getSigner(address)`) or a default signer index (`provider.getSigner(0)`). -/
inductive Signer where
  | fromAddress (address : EthAddress)
  | byIndex (index : Nat)
deriving DecidableEq

/-- The contract interface chosen for a cached asset handle. -/
inductive ContractABI where
  | erc20
  | erc20Permit
deriving DecidableEq

/-- A cached `ethers.Contract` handle for an asset. -/
structure EthContract where
  address : EthAddress
  abi : ContractABI
deriving DecidableEq

/-- The mutable state of a `Contracts` instance: the rollup contract address it
was constructed with, the address of its `rollupProcessor` contract handle, and
the cached `erc20Contracts` array. -/
structure ContractsState where
  rollupContractAddress : EthAddress
  rollupProcessorAddress : EthAddress
  erc20Contracts : List EthContract
deriving DecidableEq

/-- The constructor: `this.rollupProcessor = new ethers.Contract(rollupContractAddress, ...)`,
so the processor handle's address is the rollup contract address; the cache starts empty. -/
def mkContracts (rollupContractAddress : EthAddress) : ContractsState :=
  { rollupContractAddress := rollupContractAddress
    rollupProcessorAddress := rollupContractAddress
    erc20Contracts := [] }

/-- The reified `setSupportedAsset` contract call. -/
structure SetSupportedAssetCall where
  assetAddress : EthAddress
  supportsPermit : Bool
deriving DecidableEq

/-- `setSupportedAsset`: resolves the signer (explicit address, else signer 0),
issues the admin call, then pushes a new asset handle — permit-aware ABI iff
`supportsPermit` — onto the cached `erc20Contracts` array before returning. -/
def setSupportedAsset (st : ContractsState) (assetAddress : EthAddress)
    (supportsPermit : Bool) (signingAddress : Option EthAddress) :
    ContractsState × Signer × SetSupportedAssetCall :=
  let signer := match signingAddress with
    | some a => Signer.fromAddress a
    | none => Signer.byIndex 0
  let call : SetSupportedAssetCall :=
    { assetAddress := assetAddress, supportsPermit := supportsPermit }
  let newContractABI := if supportsPermit then ContractABI.erc20Permit else ContractABI.erc20
  ({ st with
      erc20Contracts := st.erc20Contracts ++ [{ address := assetAddress, abi := newContractABI }] },
   signer, call)

/-- The reified `processRollup` contract call issued by `sendRollupProof`. -/
structure ProcessRollupCall where
  proofData : Buffer
  signatures : Buffer
  sigIndexes : List Nat
  viewingKeys : Buffer
  gasLimit : Option Nat
deriving DecidableEq

/-- `sendRollupProof`: resolves the signer (explicit address, else signer 0),
formats the signatures, concatenates the viewing keys and issues a single
`processRollup` call. -/
def sendRollupProof (proofData : Buffer) (signatures : List Buffer)
    (sigIndexes : List Nat) (viewingKeys : List Buffer)
    (signingAddress : Option EthAddress) (gasLimit : Option Nat) :
    Signer × ProcessRollupCall :=
  let signer := match signingAddress with
    | some a => Signer.fromAddress a
    | none => Signer.byIndex 0
  let formattedSignatures := solidityFormatSignatures signatures
  (signer,
   { proofData := proofData
     signatures := formattedSignatures
     sigIndexes := sigIndexes
     viewingKeys := viewingKeys.flatten
     gasLimit := gasLimit })

/-- The two deposit call shapes the rollup processor exposes. -/
inductive DepositCall where
  | depositPendingFundsPermit (assetId : Nat) (amount : Int) (depositor : EthAddress)
      (spender : EthAddress) (approvalAmount : Int) (deadline : Int) (v r s : Buffer)
  | depositPendingFunds (assetId : Nat) (amount : Int) (depositor : EthAddress)
deriving DecidableEq

/-- Whether a deposit call is the permit-augmented shape. -/
def DepositCall.isPermit : DepositCall → Bool
  | .depositPendingFundsPermit _ _ _ _ _ _ _ _ _ => true
  | .depositPendingFunds _ _ _ => false

/-- The spender address carried by a permit-style deposit call (none for the plain shape). -/
def DepositCall.spenderOf : DepositCall → Option EthAddress
  | .depositPendingFundsPermit _ _ _ spender _ _ _ _ _ => some spender
  | .depositPendingFunds _ _ _ => none

/-- `depositPendingFunds`: the signer is always derived from `depositorAddress`;
if `permitArgs` is present the permit-augmented call is issued, carrying the
rollup processor's own address as spender, `approvalAmount`, `deadline` and the
signature components; otherwise the plain call is issued. -/
def depositPendingFunds (st : ContractsState) (assetId : Nat) (amount : Int)
    (depositorAddress : EthAddress) (permitArgs : Option PermitArgs) :
    Signer × DepositCall :=
  let signer := Signer.fromAddress depositorAddress
  let call := match permitArgs with
    | some p =>
        DepositCall.depositPendingFundsPermit assetId amount depositorAddress
          st.rollupProcessorAddress p.approvalAmount p.deadline
          p.signature.v p.signature.r p.signature.s
    | none => DepositCall.depositPendingFunds assetId amount depositorAddress
  (signer, call)

/-- A `RollupProcessed` event as returned by `queryFilter`. -/
structure RollupEvent where
  rollupId : Nat
  blockNumber : Nat
deriving DecidableEq

/-- A transaction as returned by `event.getTransaction()`; `proofData` and
`viewingKeys` stand for the ABI-decoded `processRollup` call arguments carried
in the transaction's calldata. -/
structure TransactionResponse where
  hash : Buffer
  blockNumber : Nat
  confirmations : Nat
  proofData : Buffer
  viewingKeys : Buffer
deriving DecidableEq

/-- A block as returned by `provider.getBlock`. -/
structure BlockInfo where
  timestamp : Nat
deriving DecidableEq

/-- The chain-access provider: the ordered `RollupProcessed` event log, the
originating transaction of each event, and block lookup by number. -/
structure Chain where
  events : List RollupEvent
  getTransaction : RollupEvent → TransactionResponse
  getBlock : Nat → BlockInfo

/-- Big-endian interpretation of a byte buffer as a natural number. -/
def bytesToNat (b : Buffer) : Nat := b.foldl (fun acc x => acc * 256 + x) 0

/-- Modelled from the spec: `RollupProofData.getRollupIdFromBuffer` (external
collaborator from the proof library, not under src/) — a pure accessor reading
the rollup id from the proof buffer at a fixed offset (first 32-byte word). -/
def getRollupIdFromBuffer (proofData : Buffer) : Nat := bytesToNat (proofData.take 32)

/-- Modelled from the spec: `RollupProofData.getRollupSizeFromBuffer` (external
collaborator from the proof library, not under src/) — a pure accessor reading
the rollup size from the proof buffer at a fixed offset (second 32-byte word). -/
def getRollupSizeFromBuffer (proofData : Buffer) : Nat :=
  bytesToNat ((proofData.drop 32).take 32)

/-- The `Block` domain object produced by `decodeBlock`. -/
structure Block where
  created : Nat
  txHash : Buffer
  rollupProofData : Buffer
  viewingKeysData : Buffer
  rollupId : Nat
  rollupSize : Nat
deriving DecidableEq

/-- `decodeBlock`: decodes a transaction's call arguments (proof data and
viewing keys) and the spliced-in block timestamp into a `Block`; the `Date`
constructor multiplies the unix-seconds timestamp by 1000. -/
def decodeBlock (tx : TransactionResponse) (timestamp : Nat) : Block :=
  { created := timestamp * 1000
    txHash := tx.hash
    rollupProofData := tx.proofData
    viewingKeysData := tx.viewingKeys
    rollupId := getRollupIdFromBuffer tx.proofData
    rollupSize := getRollupSizeFromBuffer tx.proofData }

/-- `getRollupBlocksFrom`: finds the first event matching `rollupId` (returning
`[]` when none exists), re-queries all events from that event's block onward,
fetches their transactions, filters by confirmation count, fetches each
retained transaction's block for its timestamp (concurrently, re-joined by
index), and decodes each transaction with its own block's timestamp. -/
def getRollupBlocksFrom (c : Chain) (rollupId : Nat) (minConfirmations : Nat) :
    List Block :=
  match (c.events.filter (fun e => e.rollupId == rollupId)).head? with
  | none => []
  | some rollupEvent =>
    let rollupEvents := c.events.filter (fun e => decide (rollupEvent.blockNumber ≤ e.blockNumber))
    let txs := (rollupEvents.map c.getTransaction).filter
      (fun tx => decide (minConfirmations ≤ tx.confirmations))
    let blocks := txs.map (fun tx => c.getBlock tx.blockNumber)
    List.zipWith (fun tx b => decodeBlock tx b.timestamp) txs blocks

/-- A reified read call against a cached asset handle. -/
inductive ReadCall where
  | balanceOf (contract : EthContract) (address : EthAddress)
  | nonces (contract : EthContract) (address : EthAddress)
  | allowance (contract : EthContract) (owner : EthAddress) (spender : EthAddress)
deriving DecidableEq

/-- `getAssetBalance`: `this.erc20Contracts[assetId].balanceOf(address)` — an
out-of-range `assetId` hits JS `undefined` and crashes locally (`none`). -/
def getAssetBalance (st : ContractsState) (assetId : Nat) (address : EthAddress) :
    Option ReadCall :=
  (st.erc20Contracts[assetId]?).map (fun c => ReadCall.balanceOf c address)

/-- `getUserNonce`: `this.erc20Contracts[assetId].nonces(address)` — an
out-of-range `assetId` hits JS `undefined` and crashes locally (`none`). -/
def getUserNonce (st : ContractsState) (assetId : Nat) (address : EthAddress) :
    Option ReadCall :=
  (st.erc20Contracts[assetId]?).map (fun c => ReadCall.nonces c address)

/-- `getAssetAllowance`: `this.erc20Contracts[assetId].allowance(address, rollupContractAddress)`
— an out-of-range `assetId` hits JS `undefined` and crashes locally (`none`). -/
def getAssetAllowance (st : ContractsState) (assetId : Nat) (address : EthAddress) :
    Option ReadCall :=
  (st.erc20Contracts[assetId]?).map
    (fun c => ReadCall.allowance c address st.rollupContractAddress)

/-- The transactions retained by `getRollupBlocksFrom` once the first matching
event `e0` is known: the transactions of all events from `e0`'s block onward,
filtered by confirmation count. -/
def retainedTxs (c : Chain) (e0 : RollupEvent) (minConfirmations : Nat) :
    List TransactionResponse :=
  ((c.events.filter (fun e => decide (e0.blockNumber ≤ e.blockNumber))).map
    c.getTransaction).filter (fun tx => decide (minConfirmations ≤ tx.confirmations))

/- Example inputs used by the witness theorems below. -/

/-- A sample 65-byte signature. -/
def sigA : Buffer := List.replicate 64 1 ++ [27]

/-- Another sample 65-byte signature. -/
def sigB : Buffer := List.replicate 32 2 ++ List.replicate 32 3 ++ [28]

/-- A sample address. -/
def addrA : EthAddress := ⟨17⟩

/-- Another sample address. -/
def addrB : EthAddress := ⟨23⟩

/-- Sample permit arguments. -/
def permitA : PermitArgs :=
  { deadline := 1000, approvalAmount := 50,
    signature := { v := [27], r := List.replicate 32 4, s := List.replicate 32 5 } }

/-- A sample transaction. -/
def txA : TransactionResponse :=
  { hash := [1], blockNumber := 10, confirmations := 1, proofData := [], viewingKeys := [] }

/-- A chain whose only event has rollup id 1. -/
def chainA : Chain :=
  { events := [⟨1, 10⟩], getTransaction := fun _ => txA, getBlock := fun _ => ⟨0⟩ }

/-- A chain with three events whose transactions have confirmations 1, 5, 10. -/
def chainB : Chain :=
  { events := [⟨0, 10⟩, ⟨1, 20⟩, ⟨2, 30⟩]
    getTransaction := fun e =>
      { hash := [e.rollupId], blockNumber := e.blockNumber
        confirmations := if e.blockNumber = 10 then 1 else if e.blockNumber = 20 then 5 else 10
        proofData := List.replicate 64 e.rollupId, viewingKeys := [] }
    getBlock := fun n => ⟨n + 100⟩ }

/-- A registry state with a single cached asset handle. -/
def stA : ContractsState :=
  { mkContracts addrA with erc20Contracts := [{ address := addrB, abi := ContractABI.erc20 }] }

/- Helper lemmas. -/

theorem formatSignature_eq (s : Buffer) (h : s.length = 65) :
    formatSignature s = s.take 64 ++ (List.replicate 31 0 ++ s.drop 64) := by
  simp [formatSignature, sliceLast, h]

theorem formatSignature_length (s : Buffer) (h : s.length = 65) :
    (formatSignature s).length = 96 := by
  simp [formatSignature_eq s h, h]

theorem take_length_64 (s : Buffer) (h : s.length = 65) : (s.take 64).length = 64 := by
  simp [h]

/-- C1: for every 65-byte signature buffer in the input sequence,
`solidityFormatSignatures` produces for it a 96-byte encoding (appearing as a
contiguous segment of the output) whose first 64 bytes equal the input's first
64 bytes, whose bytes 64 through 94 are all zero, and whose byte 95 equals the
input's 65th byte. -/
theorem solidityFormatSignatures_per_signature (sigs : List Buffer) (s : Buffer)
    (hmem : s ∈ sigs) (hlen : s.length = 65) :
    (∃ pre post, solidityFormatSignatures sigs = pre ++ formatSignature s ++ post) ∧
    (formatSignature s).length = 96 ∧
    (formatSignature s).take 64 = s.take 64 ∧
    ((formatSignature s).drop 64).take 31 = List.replicate 31 0 ∧
    (formatSignature s).drop 95 = s.drop 64 := by
  refine ⟨?_, formatSignature_length s hlen, ?_, ?_, ?_⟩
  · obtain ⟨l₁, l₂, rfl⟩ := List.append_of_mem hmem
    exact ⟨(l₁.map formatSignature).flatten, (l₂.map formatSignature).flatten,
      by simp [solidityFormatSignatures]⟩
  · rw [formatSignature_eq s hlen, List.take_left' (take_length_64 s hlen)]
  · rw [formatSignature_eq s hlen, List.drop_left' (take_length_64 s hlen),
      List.take_left' (List.length_replicate 31 0)]
  · have h95 : (formatSignature s).drop 95 = ((formatSignature s).drop 64).drop 31 := by
      rw [List.drop_drop]
    rw [h95, formatSignature_eq s hlen, List.drop_left' (take_length_64 s hlen),
      List.drop_left' (List.length_replicate 31 0)]

/-- Witness for C1 at the concrete signature `sigA` inside `[sigA, sigB]`. -/
theorem solidityFormatSignatures_per_signature_witness :
    sigA ∈ [sigA, sigB] ∧ sigA.length = 65 ∧
    ((∃ pre post, solidityFormatSignatures [sigA, sigB] = pre ++ formatSignature sigA ++ post) ∧
     (formatSignature sigA).length = 96 ∧
     (formatSignature sigA).take 64 = sigA.take 64 ∧
     ((formatSignature sigA).drop 64).take 31 = List.replicate 31 0 ∧
     (formatSignature sigA).drop 95 = sigA.drop 64) :=
  ⟨by decide, by decide,
   solidityFormatSignatures_per_signature [sigA, sigB] sigA (by decide) (by decide)⟩

theorem solidityFormatSignatures_length (sigs : List Buffer)
    (h : ∀ s ∈ sigs, s.length = 65) :
    (solidityFormatSignatures sigs).length = 96 * sigs.length := by
  induction sigs with
  | nil => simp [solidityFormatSignatures]
  | cons a l ih =>
    have ha := h a (by simp)
    have hl : ∀ s ∈ l, s.length = 65 := fun s hs => h s (by simp [hs])
    simp only [solidityFormatSignatures, List.map_cons, List.flatten_cons,
      List.length_append, List.length_cons]
    rw [formatSignature_length a ha]
    rw [show ((l.map formatSignature).flatten).length
        = (solidityFormatSignatures l).length from rfl, ih hl]
    ring

theorem solidityFormatSignatures_get (sigs : List Buffer)
    (h : ∀ s ∈ sigs, s.length = 65) (i : Nat) (hi : i < sigs.length) :
    ((solidityFormatSignatures sigs).drop (96 * i)).take 96
      = formatSignature (sigs.get ⟨i, hi⟩) := by
  induction sigs generalizing i with
  | nil => exact absurd hi (by simp)
  | cons a l ih =>
    have ha := h a (by simp)
    have hl : ∀ s ∈ l, s.length = 65 := fun s hs => h s (by simp [hs])
    cases i with
    | zero =>
      simp only [solidityFormatSignatures, List.map_cons, List.flatten_cons,
        Nat.mul_zero, List.drop_zero]
      rw [List.take_left' (formatSignature_length a ha)]
      rfl
    | succ i =>
      have h1 : 96 * (i + 1) = 96 + 96 * i := by ring
      rw [h1, ← List.drop_drop]
      simp only [solidityFormatSignatures, List.map_cons, List.flatten_cons]
      rw [List.drop_left' (formatSignature_length a ha)]
      exact ih hl i (by simpa using hi)

/-- C2: encoding `n` 65-byte signatures produces a buffer of exactly `96 * n`
bytes; the encoding of signature `i` occupies bytes `[96 * i, 96 * (i + 1))`
of the result; and the encoder is a concatenation homomorphism. -/
theorem solidityFormatSignatures_concat (sigs : List Buffer)
    (h : ∀ s ∈ sigs, s.length = 65) :
    (solidityFormatSignatures sigs).length = 96 * sigs.length ∧
    (∀ i (hi : i < sigs.length),
      ((solidityFormatSignatures sigs).drop (96 * i)).take 96
        = formatSignature (sigs.get ⟨i, hi⟩)) ∧
    (∀ xs ys : List Buffer,
      solidityFormatSignatures (xs ++ ys)
        = solidityFormatSignatures xs ++ solidityFormatSignatures ys) := by
  refine ⟨solidityFormatSignatures_length sigs h,
    fun i hi => solidityFormatSignatures_get sigs h i hi, fun xs ys => ?_⟩
  simp [solidityFormatSignatures]

/-- Witness for C2 at the concrete two-signature sequence `[sigA, sigB]`. -/
theorem solidityFormatSignatures_concat_witness :
    (∀ s ∈ [sigA, sigB], s.length = 65) ∧
    ((solidityFormatSignatures [sigA, sigB]).length = 96 * [sigA, sigB].length ∧
     (∀ i (hi : i < [sigA, sigB].length),
       ((solidityFormatSignatures [sigA, sigB]).drop (96 * i)).take 96
         = formatSignature ([sigA, sigB].get ⟨i, hi⟩)) ∧
     (∀ xs ys : List Buffer,
       solidityFormatSignatures (xs ++ ys)
         = solidityFormatSignatures xs ++ solidityFormatSignatures ys)) :=
  ⟨by decide, solidityFormatSignatures_concat [sigA, sigB] (by decide)⟩

/-- C3: `depositPendingFunds` signs with the depositor-derived signer; the
permit-augmented call shape — carrying `approvalAmount`, `deadline` and the
`v`, `r`, `s` signature components — is issued if and only if `permitArgs` is
present, and otherwise the plain call shape is issued. -/
theorem depositPendingFunds_call_shape (st : ContractsState) (assetId : Nat)
    (amount : Int) (depositorAddress : EthAddress) (permitArgs : Option PermitArgs) :
    (depositPendingFunds st assetId amount depositorAddress permitArgs).1
      = Signer.fromAddress depositorAddress ∧
    ((depositPendingFunds st assetId amount depositorAddress permitArgs).2.isPermit
      = permitArgs.isSome) ∧
    (∀ p, permitArgs = some p →
      (depositPendingFunds st assetId amount depositorAddress permitArgs).2
        = DepositCall.depositPendingFundsPermit assetId amount depositorAddress
            st.rollupProcessorAddress p.approvalAmount p.deadline
            p.signature.v p.signature.r p.signature.s) ∧
    (permitArgs = none →
      (depositPendingFunds st assetId amount depositorAddress permitArgs).2
        = DepositCall.depositPendingFunds assetId amount depositorAddress) := by
  cases permitArgs <;>
    simp [depositPendingFunds, DepositCall.isPermit]

/-- Witness for C3 at a concrete permit-carrying deposit. -/
theorem depositPendingFunds_call_shape_witness :
    (depositPendingFunds stA 0 5 addrB (some permitA)).1 = Signer.fromAddress addrB ∧
    ((depositPendingFunds stA 0 5 addrB (some permitA)).2.isPermit
      = (some permitA).isSome) ∧
    (∀ p, some permitA = some p →
      (depositPendingFunds stA 0 5 addrB (some permitA)).2
        = DepositCall.depositPendingFundsPermit 0 5 addrB
            stA.rollupProcessorAddress p.approvalAmount p.deadline
            p.signature.v p.signature.r p.signature.s) ∧
    ((some permitA : Option PermitArgs) = none →
      (depositPendingFunds stA 0 5 addrB (some permitA)).2
        = DepositCall.depositPendingFunds 0 5 addrB) :=
  depositPendingFunds_call_shape stA 0 5 addrB (some permitA)

/-- C4: when no on-chain `RollupProcessed` event matches the requested rollup
id, `getRollupBlocksFrom` returns the empty sequence (and, being total, never
raises an error). -/
theorem getRollupBlocksFrom_unknown_id_empty (c : Chain)
    (rollupId minConfirmations : Nat)
    (h : ∀ e ∈ c.events, e.rollupId ≠ rollupId) :
    getRollupBlocksFrom c rollupId minConfirmations = [] := by
  have hf : c.events.filter (fun e => e.rollupId == rollupId) = [] := by
    rw [List.filter_eq_nil_iff]
    intro e he
    simpa using h e he
  unfold getRollupBlocksFrom
  rw [hf]
  rfl

/-- Witness for C4 at a chain whose only event has rollup id 1, queried for id 5. -/
theorem getRollupBlocksFrom_unknown_id_empty_witness :
    (∀ e ∈ chainA.events, e.rollupId ≠ 5) ∧ getRollupBlocksFrom chainA 5 1 = [] :=
  ⟨by decide, getRollupBlocksFrom_unknown_id_empty chainA 5 1 (by decide)⟩

theorem getRollupBlocksFrom_eq (c : Chain) (rollupId minConfirmations : Nat)
    (e0 : RollupEvent)
    (h : (c.events.filter (fun e => e.rollupId == rollupId)).head? = some e0) :
    getRollupBlocksFrom c rollupId minConfirmations
      = (retainedTxs c e0 minConfirmations).map
          (fun tx => decodeBlock tx (c.getBlock tx.blockNumber).timestamp) := by
  unfold getRollupBlocksFrom
  rw [h]
  simp [retainedTxs, List.zipWith_map_right, List.zipWith_same]

/-- C5: once the first matching event `e0` is found, the blocks returned by
`getRollupBlocksFrom` correspond exactly — same transactions, same order — to
the fetched transactions whose confirmation count is at least
`minConfirmations` (`retainedTxs`). -/
theorem getRollupBlocksFrom_confirmation_filter (c : Chain)
    (rollupId minConfirmations : Nat) (e0 : RollupEvent)
    (h : (c.events.filter (fun e => e.rollupId == rollupId)).head? = some e0) :
    (getRollupBlocksFrom c rollupId minConfirmations).map Block.txHash
      = (retainedTxs c e0 minConfirmations).map TransactionResponse.hash := by
  rw [getRollupBlocksFrom_eq c rollupId minConfirmations e0 h]
  simp [decodeBlock]

/-- Witness for C5: three transactions with confirmations 1, 5 and 10 and
`minConfirmations = 5` yield exactly the blocks of the two sufficiently
confirmed transactions. -/
theorem getRollupBlocksFrom_confirmation_filter_witness :
    (chainB.events.filter (fun e => e.rollupId == 0)).head? = some ⟨0, 10⟩ ∧
    (getRollupBlocksFrom chainB 0 5).map Block.txHash
      = (retainedTxs chainB ⟨0, 10⟩ 5).map TransactionResponse.hash ∧
    (retainedTxs chainB ⟨0, 10⟩ 5).map TransactionResponse.hash = [[1], [2]] :=
  ⟨by decide,
   getRollupBlocksFrom_confirmation_filter chainB 0 5 ⟨0, 10⟩ (by decide),
   by decide⟩

/-- C6: the reconstructed block sequence has the same length as the retained
transaction sequence, and block `i` is the decoding of transaction `i` paired
with the timestamp of transaction `i`'s own containing block. -/
theorem getRollupBlocksFrom_order_preserving (c : Chain)
    (rollupId minConfirmations : Nat) (e0 : RollupEvent)
    (h : (c.events.filter (fun e => e.rollupId == rollupId)).head? = some e0) :
    (getRollupBlocksFrom c rollupId minConfirmations).length
      = (retainedTxs c e0 minConfirmations).length ∧
    ∀ i (hi : i < (retainedTxs c e0 minConfirmations).length),
      (getRollupBlocksFrom c rollupId minConfirmations)[i]?
        = some (decodeBlock ((retainedTxs c e0 minConfirmations).get ⟨i, hi⟩)
            (c.getBlock
              ((retainedTxs c e0 minConfirmations).get ⟨i, hi⟩).blockNumber).timestamp) := by
  rw [getRollupBlocksFrom_eq c rollupId minConfirmations e0 h]
  refine ⟨by simp, fun i hi => ?_⟩
  simp [List.getElem?_map, List.getElem?_eq_getElem hi]

/-- Witness for C6 at the three-transaction chain with `minConfirmations = 5`. -/
theorem getRollupBlocksFrom_order_preserving_witness :
    (chainB.events.filter (fun e => e.rollupId == 0)).head? = some ⟨0, 10⟩ ∧
    ((getRollupBlocksFrom chainB 0 5).length = (retainedTxs chainB ⟨0, 10⟩ 5).length ∧
     ∀ i (hi : i < (retainedTxs chainB ⟨0, 10⟩ 5).length),
       (getRollupBlocksFrom chainB 0 5)[i]?
         = some (decodeBlock ((retainedTxs chainB ⟨0, 10⟩ 5).get ⟨i, hi⟩)
             (chainB.getBlock
               ((retainedTxs chainB ⟨0, 10⟩ 5).get ⟨i, hi⟩).blockNumber).timestamp)) :=
  ⟨by decide, getRollupBlocksFrom_order_preserving chainB 0 5 ⟨0, 10⟩ (by decide)⟩

/-- C7: both `sendRollupProof` and `setSupportedAsset` sign with the
explicitly supplied `signingAddress` when one is provided, and with the
default signer at index 0 otherwise. -/
theorem signer_resolution_default (proofData : Buffer) (signatures : List Buffer)
    (sigIndexes : List Nat) (viewingKeys : List Buffer) (gasLimit : Option Nat)
    (st : ContractsState) (assetAddress : EthAddress) (supportsPermit : Bool)
    (a : EthAddress) :
    (sendRollupProof proofData signatures sigIndexes viewingKeys (some a) gasLimit).1
      = Signer.fromAddress a ∧
    (sendRollupProof proofData signatures sigIndexes viewingKeys none gasLimit).1
      = Signer.byIndex 0 ∧
    (setSupportedAsset st assetAddress supportsPermit (some a)).2.1
      = Signer.fromAddress a ∧
    (setSupportedAsset st assetAddress supportsPermit none).2.1
      = Signer.byIndex 0 := by
  exact ⟨rfl, rfl, rfl, rfl⟩

/-- C8: within the cached range the three asset reads are issued against the
cached handle at exactly that index; outside the cached range — including any
query against a freshly constructed, uninitialized registry — they fail
locally with no defensive guard. -/
theorem asset_reads_cached_range (st : ContractsState) (assetId : Nat)
    (address raddr : EthAddress) :
    (∀ hlt : assetId < st.erc20Contracts.length,
       getAssetBalance st assetId address
         = some (ReadCall.balanceOf (st.erc20Contracts.get ⟨assetId, hlt⟩) address) ∧
       getUserNonce st assetId address
         = some (ReadCall.nonces (st.erc20Contracts.get ⟨assetId, hlt⟩) address) ∧
       getAssetAllowance st assetId address
         = some (ReadCall.allowance (st.erc20Contracts.get ⟨assetId, hlt⟩) address
             st.rollupContractAddress)) ∧
    (st.erc20Contracts.length ≤ assetId →
       getAssetBalance st assetId address = none ∧
       getUserNonce st assetId address = none ∧
       getAssetAllowance st assetId address = none) ∧
    (getAssetBalance (mkContracts raddr) assetId address = none ∧
     getUserNonce (mkContracts raddr) assetId address = none ∧
     getAssetAllowance (mkContracts raddr) assetId address = none) := by
  refine ⟨fun hlt => ?_, fun hge => ?_, ?_⟩
  · simp [getAssetBalance, getUserNonce, getAssetAllowance,
      List.getElem?_eq_getElem hlt]
  · simp [getAssetBalance, getUserNonce, getAssetAllowance,
      List.getElem?_eq_none hge]
  · simp [getAssetBalance, getUserNonce, getAssetAllowance, mkContracts]

/-- Witness for C8 at a one-asset registry queried at index 0. -/
theorem asset_reads_cached_range_witness :
    (∀ hlt : 0 < stA.erc20Contracts.length,
       getAssetBalance stA 0 addrB
         = some (ReadCall.balanceOf (stA.erc20Contracts.get ⟨0, hlt⟩) addrB) ∧
       getUserNonce stA 0 addrB
         = some (ReadCall.nonces (stA.erc20Contracts.get ⟨0, hlt⟩) addrB) ∧
       getAssetAllowance stA 0 addrB
         = some (ReadCall.allowance (stA.erc20Contracts.get ⟨0, hlt⟩) addrB
             stA.rollupContractAddress)) ∧
    (stA.erc20Contracts.length ≤ 0 →
       getAssetBalance stA 0 addrB = none ∧
       getUserNonce stA 0 addrB = none ∧
       getAssetAllowance stA 0 addrB = none) ∧
    (getAssetBalance (mkContracts addrA) 0 addrB = none ∧
     getUserNonce (mkContracts addrA) 0 addrB = none ∧
     getAssetAllowance (mkContracts addrA) 0 addrB = none) :=
  asset_reads_cached_range stA 0 addrB addrA

/-- C9: `setSupportedAsset` leaves every previously cached handle at its
position and appends exactly one new handle — permit-aware ABI iff
`supportsPermit` — at the end, without touching the contract addresses. -/
theorem setSupportedAsset_append_frame (st : ContractsState)
    (assetAddress : EthAddress) (supportsPermit : Bool)
    (signingAddress : Option EthAddress) :
    ((setSupportedAsset st assetAddress supportsPermit signingAddress).1.erc20Contracts
      = st.erc20Contracts
        ++ [{ address := assetAddress,
              abi := if supportsPermit then ContractABI.erc20Permit
                     else ContractABI.erc20 }]) ∧
    ((setSupportedAsset st assetAddress supportsPermit
        signingAddress).1.erc20Contracts.length
      = st.erc20Contracts.length + 1) ∧
    (∀ i, i < st.erc20Contracts.length →
      (setSupportedAsset st assetAddress supportsPermit
          signingAddress).1.erc20Contracts[i]?
        = st.erc20Contracts[i]?) ∧
    ((setSupportedAsset st assetAddress supportsPermit
        signingAddress).1.rollupContractAddress = st.rollupContractAddress) ∧
    ((setSupportedAsset st assetAddress supportsPermit
        signingAddress).1.rollupProcessorAddress = st.rollupProcessorAddress) := by
  refine ⟨rfl, by simp [setSupportedAsset], fun i hi => ?_, rfl, rfl⟩
  simp [setSupportedAsset, List.getElem?_append, hi]

/-- Witness for C9 at a one-asset registry registering a permit-capable asset. -/
theorem setSupportedAsset_append_frame_witness :
    ((setSupportedAsset stA addrB true none).1.erc20Contracts
      = stA.erc20Contracts
        ++ [{ address := addrB,
              abi := if true then ContractABI.erc20Permit else ContractABI.erc20 }]) ∧
    ((setSupportedAsset stA addrB true none).1.erc20Contracts.length
      = stA.erc20Contracts.length + 1) ∧
    (∀ i, i < stA.erc20Contracts.length →
      (setSupportedAsset stA addrB true none).1.erc20Contracts[i]?
        = stA.erc20Contracts[i]?) ∧
    ((setSupportedAsset stA addrB true none).1.rollupContractAddress
      = stA.rollupContractAddress) ∧
    ((setSupportedAsset stA addrB true none).1.rollupProcessorAddress
      = stA.rollupProcessorAddress) :=
  setSupportedAsset_append_frame stA addrB true none

/-- C10: in every permit-augmented deposit issued from a constructed
`Contracts` instance (whatever its cached asset handles), the spender passed
to the contract is the rollup processor's own address — the rollup contract
address the instance was constructed with. -/
theorem depositPendingFundsPermit_spender (rollupContractAddress : EthAddress)
    (ctrs : List EthContract) (assetId : Nat) (amount : Int)
    (depositorAddress : EthAddress) (p : PermitArgs) :
    ((depositPendingFunds
        { mkContracts rollupContractAddress with erc20Contracts := ctrs }
        assetId amount depositorAddress (some p)).2).spenderOf
      = some rollupContractAddress := by
  rfl

end AztecConnect
